import Mathlib

/-!
Verification of the DeXAcademy core subsystems against their specification.

The development shallowly embeds, in Lean, the parts of the TypeScript
source that the checked properties are about:

* `src/services/apiKeyManager.ts` — credential pool with rotation,
  circuit breaker, cooldowns and persistence (`ApiKeyManager`,
  `isOnCooldown`, `getKey`, `markSuccess`, `markFailed`, `saveState`,
  `loadState`, the constructor's dedup/filter logic).
* `src/services/geminiService.ts` — the retry-with-rotation loop
  `callGeminiWithRetry` and its quota classification of errors.
* `src/hooks/useStudioState.ts` — the layer list, selection and the
  bounded undo/redo history (`commit`, `undo`, `redo`, `updateLayer`,
  `removeLayer`, `reorderLayer`).
* `src/hooks/useKeyboardShortcuts.ts` (`useCanvasGestures`) — drag and
  pinch gesture handling (`handlePointerDown`, `handleMove`, `handleUp`).
* The WYSIWYG capture crop in `TryOnScreen.handleCapture`.

Numbers that are JS `number`s are modelled as `ℚ` (for geometry) or `ℕ`
(for `Date.now()` timestamps and counters).  JS `%` (remainder with the
sign of the dividend) is modelled by `jsMod`.  Mutation is modelled by
explicit state passing.  `Date.now()` is passed in as a `now` argument;
the browser `localStorage` blob is the `storage` field of the manager.
-/

/-! ## String helpers (JS `String.prototype.toLowerCase` / `includes`) -/

/-- Lower-case a string character by character (ASCII suffices for the
quota markers the code matches against). -/
def lowerStr (s : String) : String := String.mk (s.toList.map Char.toLower)

/-- Whether `pat` occurs at the head of `l`. -/
def takeMatch : List Char → List Char → Bool
  | [], _ => true
  | _ :: _, [] => false
  | p :: ps, c :: cs => p == c && takeMatch ps cs

/-- Whether `pat` occurs somewhere in the character list. -/
def hasSub (pat : List Char) : List Char → Bool
  | [] => pat.isEmpty
  | c :: cs => takeMatch pat (c :: cs) || hasSub pat cs

/-- JS `s.includes(pat)`. -/
def strContains (s pat : String) : Bool := hasSub pat.toList s.toList

/-! ## ApiKeyManager (src/services/apiKeyManager.ts) -/

/-- Circuit breaker state of one credential. -/
inductive Circuit
  | CLOSED
  | OPEN
  | HALF_OPEN
deriving DecidableEq

/-- One credential record (`KeyState` in the source).  Timestamps are
`ℕ` milliseconds; `Option ℕ` models `number | null`. -/
structure KeyState where
  key : String
  failCount : Nat
  failedAt : Option Nat
  isQuotaError : Bool
  circuitState : Circuit
  lastUsed : Nat
  successCount : Nat
  totalRequests : Nat
  halfOpenTestTime : Option Nat
deriving DecidableEq

/-- The per-key fields written to `localStorage` by `saveState`. -/
structure SavedState where
  failCount : Nat
  circuitState : Circuit
  lastUsed : Nat
  failedAt : Option Nat
  halfOpenTestTime : Option Nat
  isQuotaError : Bool
deriving DecidableEq

/-- The manager: its in-memory key list plus the persisted blob
(`none` models an absent `api_rotation_state` entry). -/
structure ApiKeyManager where
  keys : List KeyState
  storage : Option (List (String × SavedState))
deriving DecidableEq

def CONFIG_MAX_CONSECUTIVE_FAILURES : Nat := 5
def COOLDOWN_TRANSIENT : Nat := 60 * 1000
def COOLDOWN_QUOTA : Nat := 5 * 60 * 1000
def HALF_OPEN_TEST_DELAY : Nat := 60 * 1000

/-- Projection of a key to its persisted fields. -/
def toSaved (k : KeyState) : SavedState :=
  ⟨k.failCount, k.circuitState, k.lastUsed, k.failedAt, k.halfOpenTestTime, k.isQuotaError⟩

/-- Source `Object.assign(k, data[k.key])` — overwrite the persisted fields. -/
def applySaved (k : KeyState) (s : SavedState) : KeyState :=
  { k with
    failCount := s.failCount
    circuitState := s.circuitState
    lastUsed := s.lastUsed
    failedAt := s.failedAt
    halfOpenTestTime := s.halfOpenTestTime
    isQuotaError := s.isQuotaError }

/-- Association-list lookup in the persisted blob. -/
def lookupSaved (data : List (String × SavedState)) (key : String) : Option SavedState :=
  match data with
  | [] => none
  | (k, s) :: rest => if k == key then some s else lookupSaved rest key

/-- Source `saveState`: serialize every key's persisted fields. -/
def saveState (m : ApiKeyManager) : ApiKeyManager :=
  { m with storage := some (m.keys.map fun k => (k.key, toSaved k)) }

/-- Source `loadState`: merge the persisted blob back over the in-memory keys. -/
def loadState (m : ApiKeyManager) : ApiKeyManager :=
  match m.storage with
  | none => m
  | some data =>
      { m with keys := m.keys.map fun k =>
          match lookupSaved data k.key with
          | some s => applySaved k s
          | none => k }

/-- Source `isOnCooldown`: the health check.  It both answers and (for an OPEN
key whose retry deadline passed) mutates the key to HALF_OPEN, so it
returns the updated key alongside the flag.  JS truthiness: a timestamp
of `0` is falsy, hence the `≠ 0` guards. -/
def isOnCooldown (now : Nat) (k : KeyState) : Bool × KeyState :=
  match k.circuitState with
  | .OPEN =>
      match k.halfOpenTestTime with
      | some t =>
          if t ≠ 0 ∧ t ≤ now then (false, { k with circuitState := .HALF_OPEN })
          else (true, k)
      | none => (true, k)
  | _ =>
      match k.failedAt with
      | some f =>
          if f ≠ 0 then
            let cooldown := if k.isQuotaError then COOLDOWN_QUOTA else COOLDOWN_TRANSIENT
            if now - f < cooldown then (true, k) else (false, k)
          else (false, k)
      | none => (false, k)

/-- Stable insertion: `x` goes after every element `y` with `le y x`. -/
def insertLe {α : Type} (le : α → α → Bool) : List α → α → List α
  | [], x => [x]
  | y :: ys, x => if le y x then y :: insertLe le ys x else x :: y :: ys

/-- Stable sort with respect to a total boolean preorder — the result a
JS `Array.prototype.sort` (stable per ES2019) produces for a comparator
consistent with `le`. -/
def sortLe {α : Type} (le : α → α → Bool) (l : List α) : List α :=
  l.foldl (insertLe le) []

/-- JS `a.failedAt || 0`. -/
def failedAtOr0 (k : KeyState) : Nat := k.failedAt.getD 0

/-- Desperation-mode comparator: oldest failure first. -/
def desperationLe (a b : KeyState) : Bool := failedAtOr0 a ≤ failedAtOr0 b

/-- Candidate comparator: fewest failures, then least recently used. -/
def candidateLe (a b : KeyState) : Bool :=
  if a.failCount ≠ b.failCount then a.failCount ≤ b.failCount
  else a.lastUsed ≤ b.lastUsed

/-- The key list after the cooldown pass (the in-place OPEN→HALF_OPEN
transitions performed while filtering). -/
def updatedKeys (now : Nat) (ks : List KeyState) : List KeyState :=
  (ks.map (isOnCooldown now)).map (·.2)

/-- Source `getKey`'s healthy candidates: the keys not on cooldown. -/
def candidatesOf (now : Nat) (ks : List KeyState) : List KeyState :=
  ((ks.map (isOnCooldown now)).filter (fun p => !p.1)).map (·.2)

/-- Replace the first occurrence of `sel` by its stamped copy
(`selected.lastUsed = Date.now()` mutates that one object). -/
def stampFirst : List KeyState → KeyState → Nat → List KeyState
  | [], _, _ => []
  | k :: ks, sel, now =>
      if k = sel then { k with lastUsed := now } :: ks
      else k :: stampFirst ks sel now

/-- Source `getKey`: reload state, filter healthy candidates, pick the best, or
fall back to the least-recently-failed key (desperation mode). -/
def getKey (now : Nat) (m0 : ApiKeyManager) : Option String × ApiKeyManager :=
  let m := loadState m0
  if m.keys.isEmpty then (none, m)
  else
    let keys1 := updatedKeys now m.keys
    let candidates := candidatesOf now m.keys
    if candidates.isEmpty then
      (match (sortLe desperationLe keys1).head? with
       | some k => if k.key == "" then none else some k.key
       | none => none,
       { m with keys := keys1 })
    else
      match (sortLe candidateLe candidates).head? with
      | some sel => (some sel.key, saveState { m with keys := stampFirst keys1 sel now })
      | none => (none, { m with keys := keys1 })

/-- Source `getKeyCount`. -/
def getKeyCount (m : ApiKeyManager) : Nat := m.keys.length

/-- The `markSuccess` update of the found key. -/
def succUpdate (k : KeyState) : KeyState :=
  { k with
    circuitState := .CLOSED
    failCount := 0
    failedAt := none
    isQuotaError := false
    successCount := k.successCount + 1
    totalRequests := k.totalRequests + 1 }

/-- The `markFailed` update of the found key (counters, then the circuit
transitions; the `failCount` threshold is read after the increment). -/
def failUpdate (now : Nat) (isQuota : Bool) (k : KeyState) : KeyState :=
  let k1 := { k with
              failedAt := some now
              failCount := k.failCount + 1
              totalRequests := k.totalRequests + 1
              isQuotaError := isQuota }
  if k.circuitState = .HALF_OPEN then
    { k1 with circuitState := .OPEN, halfOpenTestTime := some (now + HALF_OPEN_TEST_DELAY) }
  else if CONFIG_MAX_CONSECUTIVE_FAILURES ≤ k1.failCount ∨ isQuota = true then
    { k1 with
      circuitState := .OPEN
      halfOpenTestTime := some (now + (if isQuota then COOLDOWN_QUOTA else HALF_OPEN_TEST_DELAY)) }
  else k1

/-- Apply `f` to the first key whose id matches (`this.keys.find`). -/
def updateFound (key : String) (f : KeyState → KeyState) : List KeyState → List KeyState
  | [] => []
  | k :: ks => if k.key = key then f k :: ks else k :: updateFound key f ks

/-- Whether `this.keys.find(x => x.key === key)` succeeds. -/
def hasKeyEntry (key : String) (ks : List KeyState) : Bool :=
  ks.any fun k => k.key == key

/-- Source `markSuccess`: reset the circuit of the matching key and persist;
an unknown key returns without any effect. -/
def markSuccess (key : String) (m : ApiKeyManager) : ApiKeyManager :=
  if hasKeyEntry key m.keys then
    saveState { m with keys := updateFound key succUpdate m.keys }
  else m

/-- Source `markFailed`: record the failure on the matching key and persist;
an unknown key returns without any effect. -/
def markFailed (now : Nat) (key : String) (isQuota : Bool) (m : ApiKeyManager) : ApiKeyManager :=
  if hasKeyEntry key m.keys then
    saveState { m with keys := updateFound key (failUpdate now isQuota) m.keys }
  else m

/-- A fresh credential record, as built by the constructor. -/
def initKey (s : String) : KeyState :=
  ⟨s, 0, none, false, .CLOSED, 0, 0, 0, none⟩

/-- Source `Array.from(new Set(keys))`: first occurrences, in order. -/
def dedupGo (seen : List String) : List String → List String
  | [] => []
  | s :: rest =>
      if seen.contains s then dedupGo seen rest
      else s :: dedupGo (s :: seen) rest

/-- The constructor: dedupe, drop falsy (empty) keys, start CLOSED, then
`loadState` (a fresh storage holds nothing, so it is the identity). -/
def mkManager (initialKeys : List String) : ApiKeyManager :=
  let uniq := (dedupGo [] initialKeys).filter fun s => s ≠ ""
  loadState { keys := uniq.map initKey, storage := none }


/-! ## callGeminiWithRetry (src/services/geminiService.ts) -/

/-- What the wrapped operation's thrown error exposes: an optional
HTTP status field and the string form `String(error)`. -/
structure ErrInfo where
  status : Option Int
  msg : String
deriving DecidableEq

/-- The substrings whose presence in the lower-cased error string makes
the loop classify a failure as quota-type. -/
def QUOTA_MARKERS : List String := ["quota", "limit", "429", "exhausted"]

/-- The quota classification performed in the retry loop's catch block:
`errObj.status === 429 || msg.includes('quota') || msg.includes('limit')
|| msg.includes('429') || msg.includes('exhausted')` on the lower-cased
message. -/
def classifyQuota (e : ErrInfo) : Bool :=
  e.status == some 429
    || strContains (lowerStr e.msg) "quota"
    || strContains (lowerStr e.msg) "limit"
    || strContains (lowerStr e.msg) "429"
    || strContains (lowerStr e.msg) "exhausted"

/-- The claim's classification condition, rendered from the spec's
words alone — "the error signals HTTP 429 or contains
quota/limit/exhausted markers (case-insensitive substring match)" —
with the status field as the HTTP-429 signal.  It exists solely to be
compared against `classifyQuota`, which is the source's condition. -/
def specClaimQuota (e : ErrInfo) : Bool :=
  e.status == some 429
    || strContains (lowerStr e.msg) "quota"
    || strContains (lowerStr e.msg) "limit"
    || strContains (lowerStr e.msg) "exhausted"

/-- Outcome of the retry loop: the value, the "no keys" error, the
rethrown last error, or the fall-through "all keys exhausted" error. -/
inductive RetryOutcome (T : Type)
  | ok (v : T)
  | noKeysErr
  | raised (e : ErrInfo)
  | loopEnd
deriving DecidableEq

/-- The `for (attempt…)` body of `callGeminiWithRetry`.  `op attempt`
is the wrapped operation's outcome on that attempt, `times attempt` the
clock at that attempt, `maxA` the attempt bound, and the fuel equals
the remaining iterations. -/
def retryGo {T : Type} (op : Nat → Except ErrInfo T) (times : Nat → Nat) (maxA : Nat) :
    Nat → Nat → ApiKeyManager → RetryOutcome T × ApiKeyManager
  | 0, _, m => (.loopEnd, m)
  | fuel + 1, attempt, m =>
      match getKey (times attempt) m with
      | (none, m1) => (.noKeysErr, m1)
      | (some key, m1) =>
          match op attempt with
          | .ok v => (.ok v, markSuccess key m1)
          | .error e =>
              let m2 := markFailed (times attempt) key (classifyQuota e) m1
              if attempt = maxA - 1 then (.raised e, m2)
              else retryGo op times maxA fuel (attempt + 1) m2

/-- Source `callGeminiWithRetry`: up to `max(1, keyCount + 1)` attempts. -/
def callGeminiWithRetry {T : Type} (op : Nat → Except ErrInfo T) (times : Nat → Nat)
    (m : ApiKeyManager) : RetryOutcome T × ApiKeyManager :=
  retryGo op times (max 1 (getKeyCount m + 1)) (max 1 (getKeyCount m + 1)) 0 m

/-! ## Studio layer state (src/hooks/useStudioState.ts) -/

/-- A placed overlay layer. -/
structure PlacedLayer where
  uid : String
  assetId : String
  x : ℚ
  y : ℚ
  scale : ℚ
  rotation : ℚ
  blendMode : String
deriving DecidableEq

/-- The hook's state: layer list, selection, history stack and cursor. -/
structure StudioState where
  layers : List PlacedLayer
  activeLayerId : Option String
  history : List (List PlacedLayer)
  historyIndex : Nat
deriving DecidableEq

/-- Initial state of `useStudioState(initialLayers)`. -/
def initStudio (initialLayers : List PlacedLayer) : StudioState :=
  ⟨initialLayers, none, [initialLayers], 0⟩

/-- Source `commit`: truncate the redo future, append the snapshot, evict the
oldest entry past the 20-entry cap. -/
def commit (newLayers : List PlacedLayer) (s : StudioState) : StudioState :=
  let nextHistory := s.history.take (s.historyIndex + 1) ++ [newLayers]
  let nextHistory := if nextHistory.length > 20 then nextHistory.drop 1 else nextHistory
  { s with layers := newLayers, history := nextHistory, historyIndex := nextHistory.length - 1 }

/-- Smart selection restore used by `undo`/`redo`: clear the selection
only when the selected layer no longer exists in the restored list. -/
def restoreSelection (sel : Option String) (ls : List PlacedLayer) : Option String :=
  match sel with
  | some id => if ls.any fun l => l.uid == id then some id else none
  | none => none

/-- Source `undo`: step the cursor back and restore that snapshot. -/
def undo (s : StudioState) : StudioState :=
  if 0 < s.historyIndex then
    let prevIndex := s.historyIndex - 1
    let prevLayers := s.history.getD prevIndex []
    { s with
      historyIndex := prevIndex
      layers := prevLayers
      activeLayerId := restoreSelection s.activeLayerId prevLayers }
  else s

/-- Source `redo`: step the cursor forward and restore that snapshot. -/
def redo (s : StudioState) : StudioState :=
  if s.historyIndex < s.history.length - 1 then
    let nextIndex := s.historyIndex + 1
    let nextLayers := s.history.getD nextIndex []
    { s with
      historyIndex := nextIndex
      layers := nextLayers
      activeLayerId := restoreSelection s.activeLayerId nextLayers }
  else s

/-- Source `updateLayer`: in-memory patch of the matching layer, no history
push.  The JS spread `{ ...l, ...updates }` is the `patch` function. -/
def updateLayer (id : String) (patch : PlacedLayer → PlacedLayer) (s : StudioState) : StudioState :=
  { s with layers := s.layers.map fun l => if l.uid = id then patch l else l }

/-- Source `removeLayer`: filter the id out, commit, drop the selection if it
was the removed layer. -/
def removeLayer (id : String) (s : StudioState) : StudioState :=
  let s1 := commit (s.layers.filter fun l => l.uid != id) s
  if s.activeLayerId = some id then { s1 with activeLayerId := none } else s1

inductive ReorderDir
  | forward
  | backward
deriving DecidableEq

/-- Swap the elements at positions `i` and `j`. -/
def swapAt (l : List PlacedLayer) (i j : Nat) : List PlacedLayer :=
  match l[i]?, l[j]? with
  | some a, some b => (l.set i b).set j a
  | _, _ => l

/-- Source `reorderLayer`: swap with the neighbour in the given direction; the
source's `newLayers[index] !== layers[index]` identity test commits
exactly when a swap happened. -/
def reorderLayer (id : String) (dir : ReorderDir) (s : StudioState) : StudioState :=
  match s.layers.findIdx? (fun l => l.uid == id) with
  | none => s
  | some index =>
      if dir = .backward ∧ 0 < index then
        commit (swapAt s.layers index (index - 1)) s
      else if dir = .forward ∧ index < s.layers.length - 1 then
        commit (swapAt s.layers index (index + 1)) s
      else s

/-! ## Canvas gestures (useCanvasGestures in src/hooks/useKeyboardShortcuts.ts) -/

inductive GKind
  | drag
  | pinch
deriving DecidableEq

/-- The active gesture session (`GestureState` in the source). -/
structure GestureState where
  layerId : String
  type : GKind
  startX : ℚ
  startY : ℚ
  startScale : ℚ
  startRot : ℚ
  initialLayerX : ℚ
  initialLayerY : ℚ
  initialDist : ℚ
  initialAngle : ℚ
  hasMoved : Bool
deriving DecidableEq

/-- Hook-level state: the studio state plus the one active gesture. -/
structure CanvasState where
  studio : StudioState
  gesture : Option GestureState
deriving DecidableEq

/-- A move event, with the geometric measurements the source derives
from it: `getDist`/`getAngle` of the two touches (Euclidean distance
and `atan2` angle in degrees — taken here as the event's measured
rational values) and the primary pointer coordinates. -/
structure MoveSample where
  isTouch : Bool
  touches : Nat
  dist : ℚ
  angle : ℚ
  clientX : ℚ
  clientY : ℚ
deriving DecidableEq

/-- Source `Math.max(lo, Math.min(hi, v))`. -/
def clampQ (lo hi v : ℚ) : ℚ := max lo (min hi v)

/-- JS remainder `a % b` (sign of the dividend) for `b > 0`, on ℚ:
truncated division, i.e. floor of `|a|/b` with the sign restored. -/
def jsMod (a b : ℚ) : ℚ :=
  if 0 ≤ a then a - b * ⌊a / b⌋ else -(-a - b * ⌊-a / b⌋)

/-- Source `handlePointerDown` for a single pointer: select the layer and open
a drag session recording the pointer and the layer's start geometry
(selection happens before the layer lookup, as in the source). -/
def handlePointerDownDrag (layerId : String) (clientX clientY : ℚ) (cs : CanvasState) :
    CanvasState :=
  let cs1 := { cs with studio := { cs.studio with activeLayerId := some layerId } }
  match cs.studio.layers.find? (fun l => l.uid == layerId) with
  | none => cs1
  | some layer =>
      let g : GestureState :=
        ⟨layerId, .drag, clientX, clientY, layer.scale, layer.rotation,
          layer.x, layer.y, 0, 0, false⟩
      { cs1 with gesture := some g }

/-- Source `handlePointerDown` for two touches: open a pinch session recording
the initial distance/angle and the layer's start scale/rotation. -/
def handlePointerDownPinch (layerId : String) (dist angle : ℚ) (cs : CanvasState) :
    CanvasState :=
  let cs1 := { cs with studio := { cs.studio with activeLayerId := some layerId } }
  match cs.studio.layers.find? (fun l => l.uid == layerId) with
  | none => cs1
  | some layer =>
      let g : GestureState :=
        ⟨layerId, .pinch, 0, 0, layer.scale, layer.rotation, 0, 0, dist, angle, false⟩
      { cs1 with gesture := some g }

/-- The pinch branch's per-layer update. -/
def pinchApply (g : GestureState) (ev : MoveSample) (l : PlacedLayer) : PlacedLayer :=
  if l.uid = g.layerId then
    { l with
      scale := clampQ (1/10) 5 (g.startScale * (ev.dist / g.initialDist))
      rotation := jsMod (g.startRot + (ev.angle - g.initialAngle)) 360 }
  else l

/-- The drag branch's per-layer update (pixel delta → percentage delta,
clamped to the canvas). -/
def dragApply (g : GestureState) (ev : MoveSample) (rectW rectH : ℚ) (l : PlacedLayer) :
    PlacedLayer :=
  if l.uid = g.layerId then
    { l with
      x := clampQ 0 100 (g.initialLayerX + (ev.clientX - g.startX) / rectW * 100)
      y := clampQ 0 100 (g.initialLayerY + (ev.clientY - g.startY) / rectH * 100) }
  else l

/-- Source `handleMove`: mark the session dirty, then apply the pinch update
(pinch session and a two-touch event) or the drag update (drag
session), leaving the history untouched. -/
def handleMove (ev : MoveSample) (rectW rectH : ℚ) (cs : CanvasState) : CanvasState :=
  match cs.gesture with
  | none => cs
  | some g =>
      let cs1 := { cs with gesture := some { g with hasMoved := true } }
      if g.type = .pinch ∧ ev.isTouch = true ∧ ev.touches = 2 then
        { cs1 with studio :=
            { cs1.studio with layers := cs.studio.layers.map (pinchApply g ev) } }
      else if g.type = .drag then
        { cs1 with studio :=
            { cs1.studio with layers := cs.studio.layers.map (dragApply g ev rectW rectH) } }
      else cs1

/-- Source `handleUp`: commit the final layer list to history only when the
session actually moved something, then end the session. -/
def handleUp (cs : CanvasState) : CanvasState :=
  match cs.gesture with
  | none => cs
  | some g =>
      { studio := if g.hasMoved then commit cs.studio.layers cs.studio else cs.studio,
        gesture := none }

/-- A whole drag session: pointer-down on `id`, then the given move
events over a canvas of size `rectW × rectH`. -/
def dragSession (id : String) (sx sy : ℚ) (moves : List MoveSample) (rectW rectH : ℚ)
    (s : StudioState) : CanvasState :=
  moves.foldl (fun cs ev => handleMove ev rectW rectH cs)
    (handlePointerDownDrag id sx sy ⟨s, none⟩)

/-! ## WYSIWYG capture crop (TryOnScreen.handleCapture) -/

/-- The computed source crop rectangle and output canvas size. -/
structure CropResult where
  sx : ℚ
  sy : ℚ
  sWidth : ℚ
  sHeight : ℚ
  outW : ℚ
  outH : ℚ
deriving DecidableEq

def MAX_DIM : ℚ := 1280

/-- The crop/scale computation of `handleCapture`: reproduce the
`object-cover` crop of the video inside the viewport, then scale the
crop down (never up) to the 1280px cap. -/
def computeCapture (vidW vidH screenW screenH : ℚ) : CropResult :=
  let screenAspect := screenW / screenH
  let vidAspect := vidW / vidH
  let rect : ℚ × ℚ × ℚ × ℚ :=
    if vidAspect < screenAspect then
      ((0 : ℚ), (vidH - vidW / screenAspect) / 2, vidW, vidW / screenAspect)
    else
      ((vidW - vidH * screenAspect) / 2, (0 : ℚ), vidH * screenAspect, vidH)
  let scale := min 1 (MAX_DIM / max rect.2.2.1 rect.2.2.2)
  ⟨rect.1, rect.2.1, rect.2.2.1, rect.2.2.2, rect.2.2.1 * scale, rect.2.2.2 * scale⟩

/-! ## Concrete instances used in counterexamples and witnesses -/

/-- A fresh one-credential pool. -/
def poolK : ApiKeyManager := mkManager ["k"]

/-- The pool after a quota failure reported at `t = 1`
(retry deadline `300001`). -/
def poolKFailed : ApiKeyManager := markFailed 1 "k" true poolK

/-- The pool after a quota failure reported at `t = 5`. -/
def poolKFailed5 : ApiKeyManager := markFailed 5 "k" true poolK

/-- An error with no status field whose text merely mentions 429. -/
def err429line : ErrInfo := ⟨none, "Boom at line 429"⟩

/-- A placed layer rotated to 10°. -/
def layerA : PlacedLayer := ⟨"a", "asset", 50, 50, 1, 10, "normal"⟩

/-- A studio holding `layerA` with it selected. -/
def studioA : StudioState := ⟨[layerA], some "a", [[layerA]], 0⟩

/-- A studio holding `layerA` with nothing selected. -/
def studioB : StudioState := ⟨[layerA], none, [[layerA]], 0⟩

/-- An in-flight pinch session on `layerA` (unit initial distance,
zero initial angle). -/
def pinchGestureA : GestureState := ⟨"a", .pinch, 0, 0, 1, 10, 0, 0, 1, 0, false⟩

/-- The canvas in the middle of that pinch. -/
def pinchCanvasA : CanvasState := ⟨studioA, some pinchGestureA⟩

/-- A two-touch move sample at unchanged distance and −90° angle. -/
def pinchMoveEv : MoveSample := ⟨true, 2, 1, -90, 0, 0⟩

/-- A layer at the default centre position. -/
def layerC : PlacedLayer := ⟨"c", "asset", 50, 50, 1, 0, "normal"⟩

/-- A studio holding `layerC`. -/
def studioC : StudioState := ⟨[layerC], none, [[layerC]], 0⟩

/-- A mouse move to `(20, 0)`: 10% of a 200px-wide canvas. -/
def dragMoveEv : MoveSample := ⟨false, 0, 0, 0, 20, 0⟩

/-! ## Helper lemmas about the key pool -/

theorem isOnCooldown_key (now : Nat) (k : KeyState) :
    ((isOnCooldown now k).2).key = k.key := by
  unfold isOnCooldown
  rcases k with ⟨key, fc, fa, iq, cs, lu, sc, tr, ho⟩
  cases cs <;> cases fa <;> cases ho <;> dsimp <;> (repeat' split) <;> rfl

theorem applySaved_key (k : KeyState) (s : SavedState) : (applySaved k s).key = k.key := rfl

theorem loadState_keys_key (m : ApiKeyManager) :
    (loadState m).keys.map KeyState.key = m.keys.map KeyState.key := by
  unfold loadState
  cases m.storage with
  | none => rfl
  | some data =>
      dsimp
      induction m.keys with
      | nil => rfl
      | cons k ks ih =>
          dsimp
          rw [ih]
          cases lookupSaved data k.key <;> rfl

theorem loadState_keys_length (m : ApiKeyManager) :
    (loadState m).keys.length = m.keys.length := by
  have h := congrArg List.length (loadState_keys_key m)
  simpa using h

theorem loadState_keys_nil_iff (m : ApiKeyManager) :
    (loadState m).keys = [] ↔ m.keys = [] := by
  constructor
  · intro h
    have := loadState_keys_length m
    rw [h] at this
    exact List.length_eq_zero.mp this.symm
  · intro h
    have := loadState_keys_length m
    rw [h] at this
    exact List.length_eq_zero.mp this

theorem insertLe_length {α : Type} (le : α → α → Bool) (l : List α) (x : α) :
    (insertLe le l x).length = l.length + 1 := by
  induction l with
  | nil => rfl
  | cons y ys ih =>
      unfold insertLe
      split
      · simp [ih]
      · simp

theorem sortLe_length {α : Type} (le : α → α → Bool) (l : List α) :
    (sortLe le l).length = l.length := by
  suffices h : ∀ acc : List α, (l.foldl (insertLe le) acc).length = acc.length + l.length by
    simpa using h []
  induction l with
  | nil => intro acc; simp
  | cons x xs ih =>
      intro acc
      simp only [List.foldl_cons, ih, insertLe_length, List.length_cons]
      omega

theorem mem_insertLe {α : Type} (le : α → α → Bool) (l : List α) (x y : α)
    (h : y ∈ insertLe le l x) : y ∈ l ∨ y = x := by
  induction l with
  | nil =>
      simp only [insertLe, List.mem_singleton] at h
      exact Or.inr h
  | cons z zs ih =>
      unfold insertLe at h
      split at h
      · rcases List.mem_cons.mp h with h1 | h1
        · exact Or.inl (by simp [h1])
        · rcases ih h1 with h2 | h2
          · exact Or.inl (List.mem_cons_of_mem _ h2)
          · exact Or.inr h2
      · rcases List.mem_cons.mp h with h1 | h1
        · exact Or.inr h1
        · exact Or.inl h1

theorem mem_foldl_insertLe {α : Type} (le : α → α → Bool) (y : α) :
    ∀ (l acc : List α), y ∈ l.foldl (insertLe le) acc → y ∈ acc ∨ y ∈ l := by
  intro l
  induction l with
  | nil => intro acc hy; exact Or.inl (by simpa using hy)
  | cons x xs ih =>
      intro acc hy
      simp only [List.foldl_cons] at hy
      rcases ih (insertLe le acc x) hy with h1 | h1
      · rcases mem_insertLe le acc x y h1 with h2 | h2
        · exact Or.inl h2
        · exact Or.inr (by simp [h2])
      · exact Or.inr (List.mem_cons_of_mem _ h1)

theorem mem_sortLe {α : Type} (le : α → α → Bool) (l : List α) (y : α)
    (h : y ∈ sortLe le l) : y ∈ l := by
  rcases mem_foldl_insertLe le y l [] h with h1 | h1
  · exact absurd h1 (List.not_mem_nil y)
  · exact h1

theorem updatedKeys_key (now : Nat) (ks : List KeyState) :
    (updatedKeys now ks).map KeyState.key = ks.map KeyState.key := by
  induction ks with
  | nil => rfl
  | cons k rest ih =>
      have h1 : updatedKeys now (k :: rest) = (isOnCooldown now k).2 :: updatedKeys now rest := rfl
      rw [h1, List.map_cons, isOnCooldown_key, ih, List.map_cons]

theorem updatedKeys_length (now : Nat) (ks : List KeyState) :
    (updatedKeys now ks).length = ks.length := by
  have h := congrArg List.length (updatedKeys_key now ks)
  simpa using h

theorem stampFirst_mem (l : List KeyState) (sel : KeyState) (now : Nat)
    (h : sel ∈ l) : { sel with lastUsed := now } ∈ stampFirst l sel now := by
  induction l with
  | nil => exact absurd h (List.not_mem_nil sel)
  | cons k ks ih =>
      unfold stampFirst
      by_cases hk : k = sel
      · subst hk
        simp
      · rcases List.mem_cons.mp h with h1 | h1
        · exact absurd h1.symm hk
        · simp only [if_neg hk]
          exact List.mem_cons_of_mem _ (ih h1)

theorem candidatesOf_subset_updatedKeys (now : Nat) (ks : List KeyState) (k : KeyState)
    (h : k ∈ candidatesOf now ks) : k ∈ updatedKeys now ks := by
  unfold candidatesOf at h
  unfold updatedKeys
  rcases List.mem_map.mp h with ⟨p, hp, hpk⟩
  exact List.mem_map.mpr ⟨p, List.mem_of_mem_filter hp, hpk⟩

theorem key_mem_of_loadState (m : ApiKeyManager) (k : KeyState)
    (h : k ∈ (loadState m).keys) : ∃ k0 ∈ m.keys, k0.key = k.key := by
  have hmem : k.key ∈ (loadState m).keys.map KeyState.key := List.mem_map_of_mem _ h
  rw [loadState_keys_key] at hmem
  rcases List.mem_map.mp hmem with ⟨k0, hk0, he⟩
  exact ⟨k0, hk0, he⟩

theorem key_mem_of_updatedKeys (now : Nat) (ks : List KeyState) (k : KeyState)
    (h : k ∈ updatedKeys now ks) : ∃ k0 ∈ ks, k0.key = k.key := by
  have hmem : k.key ∈ (updatedKeys now ks).map KeyState.key := List.mem_map_of_mem _ h
  rw [updatedKeys_key] at hmem
  rcases List.mem_map.mp hmem with ⟨k0, hk0, he⟩
  exact ⟨k0, hk0, he⟩

theorem applySaved_toSaved (k : KeyState) : applySaved k (toSaved k) = k := rfl

theorem failUpdate_key (now : Nat) (q : Bool) (k : KeyState) :
    (failUpdate now q k).key = k.key := by
  unfold failUpdate
  dsimp
  (repeat' split) <;> rfl

/-! ## C10: unknown-key feedback calls are complete no-ops -/

/-- C10: for every key string matching no configured credential,
`markSuccess` and `markFailed` return without modifying any credential
record or the persisted pool state. -/
theorem mark_unknown_key_frame (key : String) (now : Nat) (q : Bool) (m : ApiKeyManager)
    (h : ∀ k ∈ m.keys, k.key ≠ key) :
    markSuccess key m = m ∧ markFailed now key q m = m := by
  have hh : hasKeyEntry key m.keys = false := by
    unfold hasKeyEntry
    rw [List.any_eq_false]
    intro k hk
    simpa using h k hk
  constructor <;> simp [markSuccess, markFailed, hh]

/-- Witness for C10 at a concrete pool and key. -/
theorem mark_unknown_key_frame_witness :
    markSuccess "b" (mkManager ["a"]) = mkManager ["a"] ∧
    markFailed 3 "b" true (mkManager ["a"]) = mkManager ["a"] :=
  mark_unknown_key_frame "b" 3 true (mkManager ["a"]) (by decide)

/-! ## C2: select() is null exactly on an empty pool -/

theorem getKey_ne_none_of_ne_nil (now : Nat) (m : ApiKeyManager)
    (hkeys : ∀ k ∈ m.keys, k.key ≠ "") (hne : m.keys ≠ []) :
    (getKey now m).1 ≠ none := by
  have hl : (loadState m).keys ≠ [] := fun h => hne ((loadState_keys_nil_iff m).mp h)
  have hemp : (loadState m).keys.isEmpty = false := by
    simpa [List.isEmpty_iff] using hl
  unfold getKey
  simp only [hemp, Bool.false_eq_true, if_false]
  by_cases hc : (candidatesOf now (loadState m).keys).isEmpty
  · simp only [hc, if_true]
    have hlen : (sortLe desperationLe (updatedKeys now (loadState m).keys)).length ≠ 0 := by
      rw [sortLe_length, updatedKeys_length]
      simpa [List.length_eq_zero] using hl
    cases hh : (sortLe desperationLe (updatedKeys now (loadState m).keys)).head? with
    | none =>
        rw [List.head?_eq_none_iff] at hh
        exact absurd (congrArg List.length hh) (by simpa using hlen)
    | some k =>
        have hk : k ∈ updatedKeys now (loadState m).keys :=
          mem_sortLe _ _ _ (List.mem_of_mem_head? hh)
        rcases key_mem_of_updatedKeys now _ k hk with ⟨k1, hk1, he1⟩
        rcases key_mem_of_loadState m k1 hk1 with ⟨k0, hk0, he0⟩
        have hkey : k.key ≠ "" := by
          rw [← he1, ← he0]
          exact hkeys k0 hk0
        simp only [hh]
        simp [hkey]
  · simp only [hc, Bool.false_eq_true, if_false]
    have hlen : (sortLe candidateLe (candidatesOf now (loadState m).keys)).length ≠ 0 := by
      rw [sortLe_length]
      intro h0
      exact absurd (List.isEmpty_iff.mpr (List.length_eq_zero.mp h0)) (by simpa using hc)
    cases hh : (sortLe candidateLe (candidatesOf now (loadState m).keys)).head? with
    | none =>
        rw [List.head?_eq_none_iff] at hh
        exact absurd (congrArg List.length hh) (by simpa using hlen)
    | some sel =>
        simp [hh]

/-- For a pool whose (re)loaded state holds exactly one credential with
a non-empty id, `select()` returns that credential whether or not it is
on cooldown (Scenario B's desperation fallback). -/
theorem getKey_single (now : Nat) (m : ApiKeyManager) (k : KeyState)
    (hm : (loadState m).keys = [k]) (hk : k.key ≠ "") :
    (getKey now m).1 = some k.key := by
  unfold getKey
  simp only [hm]
  have hupd : updatedKeys now [k] = [(isOnCooldown now k).2] := rfl
  cases hco : (isOnCooldown now k).1 with
  | true =>
      have hcand : candidatesOf now [k] = [] := by
        unfold candidatesOf
        simp [hco]
      simp only [hcand, hupd]
      have hsort : sortLe desperationLe [(isOnCooldown now k).2] = [(isOnCooldown now k).2] := rfl
      simp [hsort, isOnCooldown_key, hk]
  | false =>
      have hcand : candidatesOf now [k] = [(isOnCooldown now k).2] := by
        unfold candidatesOf
        simp [hco]
      have hsort : sortLe candidateLe [(isOnCooldown now k).2] = [(isOnCooldown now k).2] := rfl
      simp [hcand, hsort, isOnCooldown_key, hk]

/-- C2: `select()` returns null exactly when the pool has zero
configured credentials.  Conjuncts: the constructor only configures
credentials with non-empty ids; under that invariant `getKey` is `none`
iff the pool is empty; and a single failed credential (quota failure
reported at `now`) is still returned by an immediate — or any later —
`select()` (desperation fallback). -/
theorem select_null_iff_empty :
    (∀ ks : List String, ∀ k ∈ (mkManager ks).keys, k.key ≠ "") ∧
    (∀ (now : Nat) (m : ApiKeyManager), (∀ k ∈ m.keys, k.key ≠ "") →
      ((getKey now m).1 = none ↔ m.keys = [])) ∧
    (∀ (now later : Nat) (m : ApiKeyManager) (k0 : KeyState),
      m.keys = [k0] → k0.key ≠ "" →
      (getKey later (markFailed now k0.key true m)).1 = some k0.key) := by
  refine ⟨?_, ?_, ?_⟩
  · intro ks k hk
    unfold mkManager at hk
    simp only [loadState] at hk
    rcases List.mem_map.mp hk with ⟨s, hs, he⟩
    rcases List.mem_filter.mp hs with ⟨-, hs2⟩
    have : s ≠ "" := by simpa using hs2
    rw [← he]
    exact this
  · intro now m hkeys
    constructor
    · intro hnone
      by_contra hne
      exact getKey_ne_none_of_ne_nil now m hkeys hne hnone
    · intro hnil
      have hl : (loadState m).keys = [] := (loadState_keys_nil_iff m).mpr hnil
      unfold getKey
      simp [hl]
  · intro now later m k0 hm hk
    have hentry : hasKeyEntry k0.key m.keys = true := by
      unfold hasKeyEntry
      rw [hm]
      simp
    have hkeys1 : (markFailed now k0.key true m).keys = [failUpdate now true k0] := by
      unfold markFailed
      rw [hentry]
      simp only [if_true, saveState]
      rw [hm]
      unfold updateFound
      simp
    have hstor : (markFailed now k0.key true m).storage =
        some [((failUpdate now true k0).key, toSaved (failUpdate now true k0))] := by
      unfold markFailed
      rw [hentry]
      simp only [if_true, saveState]
      rw [hm]
      unfold updateFound
      simp [failUpdate_key]
    have hload : (loadState (markFailed now k0.key true m)).keys = [failUpdate now true k0] := by
      unfold loadState
      rw [hstor]
      simp only [hkeys1]
      simp [lookupSaved, applySaved_toSaved]
    have := getKey_single later (markFailed now k0.key true m) (failUpdate now true k0) hload
      (by rw [failUpdate_key]; exact hk)
    rw [failUpdate_key] at this
    exact this

/-- Witness for C2 at a one-credential pool. -/
theorem select_null_iff_empty_witness :
    ((getKey 0 (mkManager ["a"])).1 = none ↔ (mkManager ["a"]).keys = []) ∧
    (getKey 2 (markFailed 1 "a" true (mkManager ["a"]))).1 = some "a" :=
  ⟨select_null_iff_empty.2.1 0 (mkManager ["a"]) (by decide),
   by
    have h := select_null_iff_empty.2.2 1 2 (mkManager ["a"]) (initKey "a") (by decide) (by decide)
    simpa using h⟩

/-! ## C1: quota cooldown gating (amended) -/

/-- C1 (amended): after `markFailed(id, isQuota=true)` on a credential
not in HALF_OPEN, the circuit is OPEN with retry deadline
`now + 5 min`; the credential is excluded from `select()`'s eligible
candidates exactly while the clock is below that deadline; from the
deadline on, the check flips it to HALF_OPEN and lets it through — and
it stays eligible on every later check without any intervening
`reportSuccess` (not "exactly once"); `reportSuccess` restores CLOSED
full health. -/
theorem quota_cooldown_gate (k : KeyState) (now : Nat)
    (hst : k.circuitState ≠ Circuit.HALF_OPEN) :
    (failUpdate now true k).circuitState = Circuit.OPEN ∧
    (failUpdate now true k).halfOpenTestTime = some (now + COOLDOWN_QUOTA) ∧
    (failUpdate now true k).failedAt = some now ∧
    (failUpdate now true k).isQuotaError = true ∧
    (∀ t, t < now + COOLDOWN_QUOTA → (isOnCooldown t (failUpdate now true k)).1 = true) ∧
    (∀ t, now + COOLDOWN_QUOTA ≤ t →
      (isOnCooldown t (failUpdate now true k)).1 = false ∧
      ((isOnCooldown t (failUpdate now true k)).2).circuitState = Circuit.HALF_OPEN) ∧
    (∀ t u, now + COOLDOWN_QUOTA ≤ t → t ≤ u →
      (isOnCooldown u ((isOnCooldown t (failUpdate now true k)).2)).1 = false) ∧
    (∀ t, (isOnCooldown t (succUpdate (failUpdate now true k))).1 = false) ∧
    (∀ t, t < now + COOLDOWN_QUOTA → candidatesOf t [failUpdate now true k] = []) ∧
    (∀ t, now + COOLDOWN_QUOTA ≤ t →
      candidatesOf t [failUpdate now true k] = [(isOnCooldown t (failUpdate now true k)).2]) := by
  have hk1 : failUpdate now true k =
      { k with
        failedAt := some now
        failCount := k.failCount + 1
        totalRequests := k.totalRequests + 1
        isQuotaError := true
        circuitState := .OPEN
        halfOpenTestTime := some (now + COOLDOWN_QUOTA) } := by
    unfold failUpdate
    rw [if_neg hst, if_pos (Or.inr rfl)]
    simp
  have hne : now + COOLDOWN_QUOTA ≠ 0 := by
    unfold COOLDOWN_QUOTA
    omega
  have hbefore : ∀ t, t < now + COOLDOWN_QUOTA → (isOnCooldown t (failUpdate now true k)).1 = true := by
    intro t ht
    rw [hk1]
    unfold isOnCooldown
    dsimp
    rw [if_neg (by rintro ⟨-, hle⟩; omega)]
  have hafter : ∀ t, now + COOLDOWN_QUOTA ≤ t →
      isOnCooldown t (failUpdate now true k) =
        (false, { failUpdate now true k with circuitState := Circuit.HALF_OPEN }) := by
    intro t ht
    conv in isOnCooldown _ _ => rw [hk1]
    unfold isOnCooldown
    dsimp
    rw [if_pos ⟨hne, ht⟩, hk1]
  refine ⟨by rw [hk1], by rw [hk1], by rw [hk1], by rw [hk1], hbefore, ?_, ?_, ?_, ?_, ?_⟩
  · intro t ht
    rw [hafter t ht]
    exact ⟨rfl, rfl⟩
  · intro t u ht htu
    rw [hafter t ht]
    dsimp
    rw [hk1]
    unfold isOnCooldown
    dsimp
    by_cases hn : now = 0
    · rw [if_neg (by omega)]
    · rw [if_pos (by omega)]
      have hge : ¬ (u - now < COOLDOWN_QUOTA) := by
        unfold COOLDOWN_QUOTA at ht ⊢
        omega
      rw [if_neg hge]
  · intro t
    rw [hk1]
    unfold succUpdate isOnCooldown
    rfl
  · intro t ht
    unfold candidatesOf
    simp [hbefore t ht]
  · intro t ht
    unfold candidatesOf
    have h1 : (isOnCooldown t (failUpdate now true k)).1 = false := by rw [hafter t ht]
    simp [h1]

/-- Witness for C1 (amended) at `now = 1` on a fresh credential. -/
theorem quota_cooldown_gate_witness :
    (failUpdate 1 true (initKey "k")).circuitState = Circuit.OPEN ∧
    (isOnCooldown 300000 (failUpdate 1 true (initKey "k"))).1 = true ∧
    (isOnCooldown 300001 (failUpdate 1 true (initKey "k"))).1 = false ∧
    (isOnCooldown 300002 ((isOnCooldown 300001 (failUpdate 1 true (initKey "k"))).2)).1 = false ∧
    candidatesOf 300000 [failUpdate 1 true (initKey "k")] = [] := by
  have h := quota_cooldown_gate (initKey "k") 1 (by decide)
  exact ⟨h.1, h.2.2.2.2.1 300000 (by decide), (h.2.2.2.2.2.1 300001 (by decide)).1,
    h.2.2.2.2.2.2.1 300001 300002 (by decide) (by decide),
    h.2.2.2.2.2.2.2.2.1 300000 (by decide)⟩

/-- Counterexample to C1 as stated: with a single credential failed for
quota at `t = 1` (deadline `300001`), `select()` is refused at `300000`
but grants the credential at `300001` and again at `300002` from the
eligible-candidate path, with no `reportSuccess` in between — so the
credential is not allowed through "exactly once" before a success. -/
theorem quota_cooldown_counterexample :
    candidatesOf 300000 (loadState poolKFailed).keys = [] ∧
    (getKey 300001 poolKFailed).1 = some "k" ∧
    candidatesOf 300001 (loadState poolKFailed).keys ≠ [] ∧
    (getKey 300002 (getKey 300001 poolKFailed).2).1 = some "k" ∧
    candidatesOf 300002 (loadState (getKey 300001 poolKFailed).2).keys ≠ [] := by
  refine ⟨by decide, by decide, by decide, by decide, by decide⟩

/-! ## C4: select() stamps and persists (amended) -/

/-- C4 (amended): whenever `select()` picks its credential from the
eligible (non-cooldown) candidates, the chosen credential's last-used
timestamp is stamped to the current time and the whole pool state is
persisted before returning.  (The desperation fallback, by contrast,
returns a credential without stamping or persisting — see the
counterexample.) -/
theorem select_stamps_on_eligible (now : Nat) (m : ApiKeyManager)
    (hc : candidatesOf now (loadState m).keys ≠ []) :
    ∃ sel : KeyState,
      (getKey now m).1 = some sel.key ∧
      { sel with lastUsed := now } ∈ ((getKey now m).2).keys ∧
      ((getKey now m).2).storage =
        some (((getKey now m).2).keys.map fun k => (k.key, toSaved k)) := by
  have hl : (loadState m).keys ≠ [] := by
    intro h0
    rw [h0] at hc
    exact hc rfl
  have hemp : (loadState m).keys.isEmpty = false := by
    simpa [List.isEmpty_iff] using hl
  have hcand : (candidatesOf now (loadState m).keys).isEmpty = false := by
    simpa [List.isEmpty_iff] using hc
  unfold getKey
  simp only [hemp, Bool.false_eq_true, if_false, hcand]
  have hlen : (sortLe candidateLe (candidatesOf now (loadState m).keys)).length ≠ 0 := by
    rw [sortLe_length]
    simpa [List.length_eq_zero] using hc
  cases hh : (sortLe candidateLe (candidatesOf now (loadState m).keys)).head? with
  | none =>
      rw [List.head?_eq_none_iff] at hh
      exact absurd (congrArg List.length hh) (by simpa using hlen)
  | some sel =>
      have hmem : sel ∈ candidatesOf now (loadState m).keys :=
        mem_sortLe _ _ _ (List.mem_of_mem_head? hh)
      have hupd : sel ∈ updatedKeys now (loadState m).keys :=
        candidatesOf_subset_updatedKeys now _ sel hmem
      refine ⟨sel, rfl, ?_, rfl⟩
      exact stampFirst_mem _ sel now hupd

/-- Witness for C4 (amended) on a fresh pool. -/
theorem select_stamps_on_eligible_witness :
    ∃ sel : KeyState,
      (getKey 7 (mkManager ["a"])).1 = some sel.key ∧
      { sel with lastUsed := 7 } ∈ ((getKey 7 (mkManager ["a"])).2).keys ∧
      ((getKey 7 (mkManager ["a"])).2).storage =
        some (((getKey 7 (mkManager ["a"])).2).keys.map fun k => (k.key, toSaved k)) :=
  select_stamps_on_eligible 7 (mkManager ["a"]) (by decide)

/-- Counterexample to C4 as stated: at `t = 10` the single-credential
pool (quota-failed at `t = 5`) is wholly on cooldown, so `select()`
answers through the desperation fallback: it returns the credential,
yet its `lastUsed` stays `0` (not stamped to `10`) and the persisted
blob is exactly the one `markFailed` wrote at `t = 5` (no persist). -/
theorem select_stamp_counterexample :
    (getKey 10 poolKFailed5).1 = some "k" ∧
    ((getKey 10 poolKFailed5).2).keys.map KeyState.lastUsed = [0] ∧
    ((getKey 10 poolKFailed5).2).storage = poolKFailed5.storage := by
  refine ⟨by decide, by decide, by decide⟩

/-! ## C5: quota classification in the retry loop (amended) -/

theorem failUpdate_isQuotaError (now : Nat) (q : Bool) (k : KeyState) :
    (failUpdate now q k).isQuotaError = q := by
  unfold failUpdate
  dsimp
  (repeat' split) <;> rfl

theorem find?_updateFound (key : String) (f : KeyState → KeyState) (ks : List KeyState)
    (k : KeyState) (h : ks.find? (fun x => x.key == key) = some k) (hf : (f k).key = k.key) :
    (updateFound key f ks).find? (fun x => x.key == key) = some (f k) := by
  induction ks with
  | nil => simp at h
  | cons k0 rest ih =>
      by_cases h0 : k0.key = key
      · have hfh : (k0 :: rest).find? (fun x => x.key == key) = some k0 := by
          simp [List.find?_cons, h0]
        rw [hfh] at h
        have hk : k0 = k := by simpa using h
        subst hk
        have hu : updateFound key f (k0 :: rest) = f k0 :: rest := by
          show (if k0.key = key then f k0 :: rest else k0 :: updateFound key f rest) = _
          rw [if_pos h0]
        rw [hu]
        simp [List.find?_cons, hf, h0]
      · have hfh : (k0 :: rest).find? (fun x => x.key == key) =
            rest.find? (fun x => x.key == key) := by
          simp [List.find?_cons, h0]
        rw [hfh] at h
        have hu : updateFound key f (k0 :: rest) = k0 :: updateFound key f rest := by
          show (if k0.key = key then f k0 :: rest else k0 :: updateFound key f rest) = _
          rw [if_neg h0]
        rw [hu]
        have hfh2 : (k0 :: updateFound key f rest).find? (fun x => x.key == key) =
            (updateFound key f rest).find? (fun x => x.key == key) := by
          simp [List.find?_cons, h0]
        rw [hfh2]
        exact ih h

theorem hasKeyEntry_of_find? (key : String) (ks : List KeyState) (k : KeyState)
    (h : ks.find? (fun x => x.key == key) = some k) : hasKeyEntry key ks = true := by
  unfold hasKeyEntry
  rw [List.any_eq_true]
  exact ⟨k, List.mem_of_find?_eq_some h, by simpa using List.find?_some h⟩

/-- C5 (amended): in the retry loop the used credential is reported
failed with the quota classification set to true if and only if the
error's status field is 429 or its lower-cased string form contains one
of the substrings "quota", "limit", "429", "exhausted".  (The claim's
marker list omitted the bare "429" substring — see the
counterexample.) -/
theorem quota_classification (e : ErrInfo) (now : Nat) (key : String) (m : ApiKeyManager)
    (k : KeyState) (hfind : m.keys.find? (fun x => x.key == key) = some k) :
    ∃ k', (markFailed now key (classifyQuota e) m).keys.find? (fun x => x.key == key) = some k' ∧
      (k'.isQuotaError = true ↔
        (e.status = some 429 ∨ ∃ p ∈ QUOTA_MARKERS, strContains (lowerStr e.msg) p = true)) := by
  have hentry := hasKeyEntry_of_find? key m.keys k hfind
  have hkeys : (markFailed now key (classifyQuota e) m).keys =
      updateFound key (failUpdate now (classifyQuota e)) m.keys := by
    unfold markFailed
    rw [hentry]
    rfl
  refine ⟨failUpdate now (classifyQuota e) k, ?_, ?_⟩
  · rw [hkeys]
    exact find?_updateFound key _ m.keys k hfind (failUpdate_key now _ k)
  · rw [failUpdate_isQuotaError]
    unfold classifyQuota QUOTA_MARKERS
    simp only [Bool.or_eq_true, beq_iff_eq, List.mem_cons, List.not_mem_nil, or_false,
      List.mem_singleton]
    constructor
    · rintro ((((h | h) | h) | h) | h)
      · exact Or.inl h
      · exact Or.inr ⟨"quota", by simp, h⟩
      · exact Or.inr ⟨"limit", by simp, h⟩
      · exact Or.inr ⟨"429", by simp, h⟩
      · exact Or.inr ⟨"exhausted", by simp, h⟩
    · rintro (h | ⟨p, hp, hc⟩)
      · exact Or.inl (Or.inl (Or.inl (Or.inl h)))
      · rcases hp with h1 | h1 | h1 | h1
        · subst h1; exact Or.inl (Or.inl (Or.inl (Or.inr hc)))
        · subst h1; exact Or.inl (Or.inl (Or.inr hc))
        · subst h1; exact Or.inl (Or.inr hc)
        · subst h1; exact Or.inr hc

/-- Witness for C5 (amended) at a structured 429 error. -/
theorem quota_classification_witness :
    ∃ k', (markFailed 3 "k" (classifyQuota ⟨some 429, "x"⟩) (mkManager ["k"])).keys.find?
        (fun x => x.key == "k") = some k' ∧
      (k'.isQuotaError = true ↔
        ((⟨some 429, "x"⟩ : ErrInfo).status = some 429 ∨
          ∃ p ∈ QUOTA_MARKERS, strContains (lowerStr (⟨some 429, "x"⟩ : ErrInfo).msg) p = true)) :=
  quota_classification ⟨some 429, "x"⟩ 3 "k" (mkManager ["k"]) (initKey "k") (by decide)

/-- Counterexample to C5 as stated: an error with no status field whose
text contains "429" only incidentally ("Boom at line 429") is not
covered by the claim's condition (status 429 or a
quota/limit/exhausted marker), yet the code classifies it as
quota-type, and a retry-loop run marks the used credential's failure
with `isQuota = true`. -/
theorem quota_classification_counterexample :
    classifyQuota err429line = true ∧
    specClaimQuota err429line = false ∧
    ((callGeminiWithRetry (T := Unit) (fun _ => Except.error err429line) (fun _ => 0)
        (mkManager ["k"])).2).keys.map KeyState.isQuotaError = [true] := by
  refine ⟨by decide, by decide, by decide⟩

/-! ## C3: undo/redo round trip and the 20-entry history cap -/

theorem commit_shape (L : List PlacedLayer) (s : StudioState) :
    ∃ T, (commit L s).history = T ++ [L] ∧ (commit L s).historyIndex = T.length ∧
      (commit L s).layers = L := by
  unfold commit
  dsimp only
  by_cases hlen : (s.history.take (s.historyIndex + 1) ++ [L]).length > 20
  · rw [if_pos hlen]
    cases hpre : s.history.take (s.historyIndex + 1) with
    | nil =>
        rw [hpre] at hlen
        simp at hlen
    | cons p pre =>
        refine ⟨pre, ?_, ?_, rfl⟩
        · simp
        · simp
  · rw [if_neg hlen]
    exact ⟨s.history.take (s.historyIndex + 1), rfl, by simp, rfl⟩

theorem commit_on_shape (L Lp : List PlacedLayer) (T : List (List PlacedLayer))
    (s : StudioState) (hh : s.history = T ++ [Lp]) (hi : s.historyIndex = T.length) :
    ∃ U, (commit L s).history = U ++ [Lp, L] ∧ (commit L s).historyIndex = U.length + 1 ∧
      (commit L s).layers = L := by
  unfold commit
  dsimp only
  rw [hh, hi]
  have htake : (T ++ [Lp]).take (T.length + 1) = T ++ [Lp] := by
    have hl : (T ++ [Lp]).length = T.length + 1 := by simp
    rw [← hl, List.take_length]
  rw [htake]
  by_cases hlen : ((T ++ [Lp]) ++ [L]).length > 20
  · rw [if_pos hlen]
    cases T with
    | nil => simp at hlen
    | cons t U =>
        refine ⟨U, ?_, ?_, rfl⟩
        · simp
        · simp
  · rw [if_neg hlen]
    refine ⟨T, ?_, ?_, rfl⟩
    · simp
    · simp

theorem getD_pair_fst (U : List (List PlacedLayer)) (a b d : List PlacedLayer) :
    (U ++ [a, b]).getD U.length d = a := by
  rw [List.getD_eq_getElem?_getD, List.getElem?_append_right (le_refl U.length)]
  simp

theorem getD_pair_snd (U : List (List PlacedLayer)) (a b d : List PlacedLayer) :
    (U ++ [a, b]).getD (U.length + 1) d = b := by
  rw [List.getD_eq_getElem?_getD,
    List.getElem?_append_right (Nat.le_succ_of_le (le_refl U.length))]
  simp

theorem undo_redo_round (s : StudioState) (L1 L2 : List PlacedLayer) :
    (undo (commit L2 (commit L1 s))).layers = L1 ∧
    (redo (undo (commit L2 (commit L1 s)))).layers = L2 := by
  obtain ⟨T, h1, h2, -⟩ := commit_shape L1 s
  obtain ⟨U, g1, g2, -⟩ := commit_on_shape L2 L1 T (commit L1 s) h1 h2
  have h0 : 0 < (commit L2 (commit L1 s)).historyIndex := by omega
  have hu : undo (commit L2 (commit L1 s)) =
      { commit L2 (commit L1 s) with
        historyIndex := (commit L2 (commit L1 s)).historyIndex - 1
        layers := L1
        activeLayerId :=
          restoreSelection (commit L2 (commit L1 s)).activeLayerId L1 } := by
    unfold undo
    rw [if_pos h0]
    dsimp only
    have hget : (commit L2 (commit L1 s)).history.getD
        ((commit L2 (commit L1 s)).historyIndex - 1) [] = L1 := by
      rw [g1, g2]
      simpa using getD_pair_fst U L1 L2 []
    rw [hget]
  constructor
  · rw [hu]
  · rw [hu]
    unfold redo
    dsimp only
    rw [g1, g2]
    have hcond : U.length + 1 - 1 < (U ++ [L1, L2]).length - 1 := by
      simp
    rw [if_pos hcond]
    dsimp only
    have : U.length + 1 - 1 + 1 = U.length + 1 := by omega
    rw [this]
    exact getD_pair_snd U L1 L2 []

theorem commit_length_le (L : List PlacedLayer) (s : StudioState)
    (h : s.history.length ≤ 20) : (commit L s).history.length ≤ 20 := by
  unfold commit
  dsimp only
  by_cases hlen : (s.history.take (s.historyIndex + 1) ++ [L]).length > 20
  · rw [if_pos hlen]
    have ht : (s.history.take (s.historyIndex + 1)).length ≤ 20 := by
      have := List.length_take (s.historyIndex + 1) s.history
      omega
    simp only [List.length_drop, List.length_append, List.length_singleton]
    omega
  · rw [if_neg hlen]
    omega

theorem history_cap (Ls : List (List PlacedLayer)) :
    ∀ s : StudioState, s.history.length ≤ 20 →
      (Ls.foldl (fun s L => commit L s) s).history.length ≤ 20 := by
  induction Ls with
  | nil => intro s hs; simpa using hs
  | cons L rest ih =>
      intro s hs
      simp only [List.foldl_cons]
      exact ih _ (commit_length_le L s hs)

/-- C3: from any state, `commit L1; commit L2; undo` restores exactly
`L1` and a following `redo` restores exactly `L2`; and over every
sequence of commits from the initial state the history stack never
exceeds 20 entries (the eviction of the oldest entry on overflow keeps
the bound). -/
theorem studio_round_trip_and_cap :
    (∀ (s : StudioState) (L1 L2 : List PlacedLayer),
      (undo (commit L2 (commit L1 s))).layers = L1 ∧
      (redo (undo (commit L2 (commit L1 s)))).layers = L2) ∧
    (∀ (init : List PlacedLayer) (Ls : List (List PlacedLayer)),
      (Ls.foldl (fun s L => commit L s) (initStudio init)).history.length ≤ 20) :=
  ⟨undo_redo_round, fun init Ls => history_cap Ls (initStudio init) (by simp [initStudio])⟩

/-! ## C7: LayerEngine calls with an unknown id (amended) -/

theorem map_id_on {α : Type} (f : α → α) (l : List α) (h : ∀ x ∈ l, f x = x) :
    l.map f = l := by
  induction l with
  | nil => rfl
  | cons a l ih =>
      simp only [List.map_cons]
      rw [h a (by simp), ih fun x hx => h x (List.mem_cons_of_mem _ hx)]

theorem findIdx?_go_none {α : Type} (p : α → Bool) (l : List α)
    (h : ∀ x ∈ l, p x = false) : ∀ i, List.findIdx? p l i = none := by
  induction l with
  | nil => intro i; rfl
  | cons a l ih =>
      intro i
      rw [List.findIdx?_cons, h a (by simp)]
      simp only [Bool.false_eq_true, if_false]
      exact ih (fun x hx => h x (List.mem_cons_of_mem _ hx)) (i + 1)

theorem findIdx?_none_of {α : Type} (p : α → Bool) (l : List α)
    (h : ∀ x ∈ l, p x = false) : l.findIdx? p = none :=
  findIdx?_go_none p l h 0

/-- C7 (amended): with an id matching no layer, `update` and `reorder`
leave the whole state unchanged; `remove` leaves the layer list and the
(non-dangling) selection unchanged but still pushes a history entry —
it behaves exactly like `commit` of the unchanged list, rather than
being a complete no-op.  (See the counterexample for the pushed
entry.) -/
theorem layer_ops_unknown_id (s : StudioState) (id : String)
    (patch : PlacedLayer → PlacedLayer) (dir : ReorderDir)
    (h : ∀ l ∈ s.layers, l.uid ≠ id) (hsel : s.activeLayerId ≠ some id) :
    updateLayer id patch s = s ∧
    reorderLayer id dir s = s ∧
    removeLayer id s = commit s.layers s := by
  refine ⟨?_, ?_, ?_⟩
  · unfold updateLayer
    have hm : s.layers.map (fun l => if l.uid = id then patch l else l) = s.layers :=
      map_id_on _ _ fun l hl => if_neg (h l hl)
    rw [hm]
  · unfold reorderLayer
    rw [findIdx?_none_of _ _ fun l hl => by simp [h l hl]]
  · unfold removeLayer
    have hf : (s.layers.filter fun l => l.uid != id) = s.layers :=
      List.filter_eq_self.mpr fun l hl => by simp [h l hl]
    rw [hf, if_neg hsel]

/-- Witness for C7 (amended) on a one-layer studio. -/
theorem layer_ops_unknown_id_witness :
    updateLayer "zzz" (fun l => l) studioB = studioB ∧
    reorderLayer "zzz" ReorderDir.forward studioB = studioB ∧
    removeLayer "zzz" studioB = commit studioB.layers studioB :=
  layer_ops_unknown_id studioB "zzz" (fun l => l) ReorderDir.forward
    (by decide) (by decide)

/-- Counterexample to C7 as stated: removing an id that matches no
layer still pushes a (duplicate) history entry — the history grows from
1 to 2 snapshots although the layer list is untouched. -/
theorem remove_unknown_id_counterexample :
    studioB.layers.all (fun l => l.uid != "zzz") = true ∧
    studioB.history.length = 1 ∧
    (removeLayer "zzz" studioB).history.length = 2 ∧
    (removeLayer "zzz" studioB).layers = studioB.layers := by
  refine ⟨by decide, by decide, by decide, by decide⟩

/-! ## C6: pinch scale/rotation update (amended) -/

theorem jsMod_eq_fract (b : ℚ) :
    b - 360 * ⌊b / 360⌋ = 360 * Int.fract (b / 360) := by
  rw [Int.fract]
  have h360 : (360 : ℚ) * (b / 360) = b := by
    rw [mul_comm, div_mul_cancel₀]
    norm_num
  rw [mul_sub, h360]

theorem jsMod_360_bounds (a : ℚ) :
    -360 < jsMod a 360 ∧ jsMod a 360 < 360 ∧ (0 ≤ a → 0 ≤ jsMod a 360) ∧
      (a < 0 → jsMod a 360 ≤ 0) := by
  have key : ∀ b : ℚ, 0 ≤ b → 0 ≤ b - 360 * ⌊b / 360⌋ ∧ b - 360 * ⌊b / 360⌋ < 360 := by
    intro b hb
    rw [jsMod_eq_fract b]
    have h1 : (0 : ℚ) ≤ Int.fract (b / 360) := Int.fract_nonneg _
    have h2 : Int.fract (b / 360) < 1 := Int.fract_lt_one _
    constructor
    · positivity
    · nlinarith
  unfold jsMod
  by_cases ha : 0 ≤ a
  · rw [if_pos ha]
    obtain ⟨hlo, hhi⟩ := key a ha
    exact ⟨by linarith, hhi, fun _ => hlo, fun hneg => absurd ha (not_le.mpr hneg)⟩
  · rw [if_neg ha]
    obtain ⟨hlo, hhi⟩ := key (-a) (by linarith)
    exact ⟨by linarith, by linarith, fun h0 => absurd h0 ha, fun _ => by linarith⟩

theorem clampQ_bounds (lo hi v : ℚ) (h : lo ≤ hi) :
    lo ≤ clampQ lo hi v ∧ clampQ lo hi v ≤ hi := by
  unfold clampQ
  exact ⟨le_max_left lo _, max_le h (min_le_left hi v)⟩

/-- C6 (amended): a pinch move sets the matching layer's scale to
start scale × (distance ratio) clamped to [0.1, 5], and its rotation to
the JS remainder `(startRot + angleDelta) % 360`, which lies in the
open interval (−360, 360): it is nonnegative (hence in [0, 360))
whenever `startRot + angleDelta` is nonnegative, and nonpositive
whenever `startRot + angleDelta` is negative — not always in [0, 360)
as the claim states (see the counterexample for a negative result). -/
theorem pinch_update_spec (cs : CanvasState) (g : GestureState) (ev : MoveSample)
    (l : PlacedLayer) (rectW rectH : ℚ)
    (hg : cs.gesture = some g) (ht : g.type = GKind.pinch)
    (hTouch : ev.isTouch = true) (h2 : ev.touches = 2)
    (hd : g.initialDist ≠ 0) (hl : l ∈ cs.studio.layers) (hid : l.uid = g.layerId) :
    pinchApply g ev l ∈ (handleMove ev rectW rectH cs).studio.layers ∧
    (pinchApply g ev l).scale = clampQ (1/10) 5 (g.startScale * (ev.dist / g.initialDist)) ∧
    1/10 ≤ (pinchApply g ev l).scale ∧ (pinchApply g ev l).scale ≤ 5 ∧
    (pinchApply g ev l).rotation = jsMod (g.startRot + (ev.angle - g.initialAngle)) 360 ∧
    -360 < (pinchApply g ev l).rotation ∧ (pinchApply g ev l).rotation < 360 ∧
    (0 ≤ g.startRot + (ev.angle - g.initialAngle) → 0 ≤ (pinchApply g ev l).rotation) ∧
    (g.startRot + (ev.angle - g.initialAngle) < 0 → (pinchApply g ev l).rotation ≤ 0) := by
  have hbranch : (handleMove ev rectW rectH cs).studio.layers =
      cs.studio.layers.map (pinchApply g ev) := by
    unfold handleMove
    rw [hg]
    dsimp only
    rw [if_pos ⟨ht, hTouch, h2⟩]
  have happ : pinchApply g ev l =
      { l with
        scale := clampQ (1/10) 5 (g.startScale * (ev.dist / g.initialDist))
        rotation := jsMod (g.startRot + (ev.angle - g.initialAngle)) 360 } := by
    unfold pinchApply
    rw [if_pos hid]
  obtain ⟨hs1, hs2⟩ := clampQ_bounds (1/10) 5 (g.startScale * (ev.dist / g.initialDist))
    (by norm_num)
  obtain ⟨hr1, hr2, hr3, hr4⟩ := jsMod_360_bounds (g.startRot + (ev.angle - g.initialAngle))
  refine ⟨?_, ?_, ?_, ?_, ?_, ?_, ?_, ?_, ?_⟩
  · rw [hbranch]
    exact List.mem_map_of_mem _ hl
  · rw [happ]
  · rw [happ]; exact hs1
  · rw [happ]; exact hs2
  · rw [happ]
  · rw [happ]; exact hr1
  · rw [happ]; exact hr2
  · rw [happ]; exact hr3
  · rw [happ]; exact hr4

/-- Witness for C6 (amended) at the concrete pinch session. -/
theorem pinch_update_spec_witness :
    pinchApply pinchGestureA pinchMoveEv layerA ∈
      (handleMove pinchMoveEv 100 100 pinchCanvasA).studio.layers ∧
    (pinchApply pinchGestureA pinchMoveEv layerA).scale =
      clampQ (1/10) 5 (pinchGestureA.startScale * (pinchMoveEv.dist / pinchGestureA.initialDist)) ∧
    1/10 ≤ (pinchApply pinchGestureA pinchMoveEv layerA).scale ∧
    (pinchApply pinchGestureA pinchMoveEv layerA).scale ≤ 5 ∧
    (pinchApply pinchGestureA pinchMoveEv layerA).rotation =
      jsMod (pinchGestureA.startRot + (pinchMoveEv.angle - pinchGestureA.initialAngle)) 360 ∧
    -360 < (pinchApply pinchGestureA pinchMoveEv layerA).rotation ∧
    (pinchApply pinchGestureA pinchMoveEv layerA).rotation < 360 ∧
    (0 ≤ pinchGestureA.startRot + (pinchMoveEv.angle - pinchGestureA.initialAngle) →
      0 ≤ (pinchApply pinchGestureA pinchMoveEv layerA).rotation) ∧
    (pinchGestureA.startRot + (pinchMoveEv.angle - pinchGestureA.initialAngle) < 0 →
      (pinchApply pinchGestureA pinchMoveEv layerA).rotation ≤ 0) :=
  pinch_update_spec pinchCanvasA pinchGestureA pinchMoveEv layerA 100 100 rfl rfl rfl rfl
    (by norm_num [pinchGestureA]) (by simp [pinchCanvasA, studioA]) rfl

/-- Counterexample to C6 as stated: a pinch on a layer rotated 10° with
an angle delta of −90° yields rotation `(10 − 90) % 360 = −80` (JS
remainder keeps the dividend's sign), which does not lie in
[0, 360). -/
theorem pinch_rotation_counterexample :
    ((handleMove pinchMoveEv 100 100 pinchCanvasA).studio.layers.map PlacedLayer.rotation)
      = [-80] ∧ ¬ (0 ≤ (-80 : ℚ)) := by
  constructor
  · norm_num [handleMove, pinchCanvasA, pinchGestureA, pinchMoveEv, layerA, studioA,
      pinchApply, jsMod, clampQ]
  · norm_num

/-! ## C9: drag moves and the commit-on-release rule -/

theorem handleMove_gesture (ev : MoveSample) (rectW rectH : ℚ) (cs : CanvasState)
    (g : GestureState) (hg : cs.gesture = some g) :
    (handleMove ev rectW rectH cs).gesture = some { g with hasMoved := true } := by
  unfold handleMove
  rw [hg]
  dsimp only
  split
  · rfl
  · split
    · rfl
    · rfl

theorem handleMove_frame (ev : MoveSample) (rectW rectH : ℚ) (cs : CanvasState) :
    (handleMove ev rectW rectH cs).studio.history = cs.studio.history ∧
    (handleMove ev rectW rectH cs).studio.historyIndex = cs.studio.historyIndex := by
  unfold handleMove
  cases hg : cs.gesture with
  | none => exact ⟨rfl, rfl⟩
  | some g =>
      dsimp only
      split
      · exact ⟨rfl, rfl⟩
      · split
        · exact ⟨rfl, rfl⟩
        · exact ⟨rfl, rfl⟩

theorem handleMove_drag_layers (ev : MoveSample) (rectW rectH : ℚ) (cs : CanvasState)
    (g : GestureState) (hg : cs.gesture = some g) (ht : g.type = GKind.drag) :
    (handleMove ev rectW rectH cs).studio.layers =
      cs.studio.layers.map (dragApply g ev rectW rectH) := by
  unfold handleMove
  rw [hg]
  dsimp only
  rw [if_neg (by rintro ⟨hp, -⟩; rw [ht] at hp; exact absurd hp (by decide)), if_pos ht]

theorem foldl_handleMove_gesture (rectW rectH : ℚ) (moves : List MoveSample) :
    ∀ (cs : CanvasState) (g : GestureState), cs.gesture = some g →
      (moves.foldl (fun c e => handleMove e rectW rectH c) cs).gesture =
        some (if moves.isEmpty then g else { g with hasMoved := true }) := by
  induction moves with
  | nil => intro cs g hg; simpa using hg
  | cons ev rest ih =>
      intro cs g hg
      simp only [List.foldl_cons]
      rw [ih (handleMove ev rectW rectH cs) { g with hasMoved := true }
        (handleMove_gesture ev rectW rectH cs g hg)]
      cases rest <;> rfl

theorem foldl_handleMove_frame (rectW rectH : ℚ) (moves : List MoveSample) :
    ∀ cs : CanvasState,
      (moves.foldl (fun c e => handleMove e rectW rectH c) cs).studio.history =
        cs.studio.history ∧
      (moves.foldl (fun c e => handleMove e rectW rectH c) cs).studio.historyIndex =
        cs.studio.historyIndex := by
  induction moves with
  | nil => intro cs; exact ⟨rfl, rfl⟩
  | cons ev rest ih =>
      intro cs
      simp only [List.foldl_cons]
      obtain ⟨h1, h2⟩ := handleMove_frame ev rectW rectH cs
      obtain ⟨h3, h4⟩ := ih (handleMove ev rectW rectH cs)
      exact ⟨h3.trans h1, h4.trans h2⟩

/-- C9: in a drag session opened on the layer found for `id`, every
move event places the matching layers at the start position plus the
pointer delta converted to canvas percentages and clamped to [0, 100];
releasing without any move leaves the studio untouched (only the
selection changed at pointer-down, nothing committed), and releasing
after at least one move commits the final layer list to history exactly
once (one new entry when there is no redo future and the cap is not
hit). -/
theorem drag_session_spec (s : StudioState) (id : String) (l : PlacedLayer)
    (sx sy rectW rectH : ℚ) (ms : List MoveSample) (ev : MoveSample)
    (hfind : s.layers.find? (fun a => a.uid == id) = some l) :
    (∀ a ∈ (dragSession id sx sy (ms ++ [ev]) rectW rectH s).studio.layers,
      a.uid = id →
        a.x = clampQ 0 100 (l.x + (ev.clientX - sx) / rectW * 100) ∧
        a.y = clampQ 0 100 (l.y + (ev.clientY - sy) / rectH * 100)) ∧
    handleUp (dragSession id sx sy [] rectW rectH s) =
      ⟨{ s with activeLayerId := some id }, none⟩ ∧
    (handleUp (dragSession id sx sy (ms ++ [ev]) rectW rectH s)).studio =
      commit (dragSession id sx sy (ms ++ [ev]) rectW rectH s).studio.layers
        (dragSession id sx sy (ms ++ [ev]) rectW rectH s).studio ∧
    (s.historyIndex + 1 = s.history.length → s.history.length ≤ 19 →
      (handleUp (dragSession id sx sy (ms ++ [ev]) rectW rectH s)).studio.history =
        s.history ++ [(dragSession id sx sy (ms ++ [ev]) rectW rectH s).studio.layers]) := by
  have hdown : handlePointerDownDrag id sx sy ⟨s, none⟩ =
      ⟨{ s with activeLayerId := some id },
        some ⟨id, .drag, sx, sy, l.scale, l.rotation, l.x, l.y, 0, 0, false⟩⟩ := by
    unfold handlePointerDownDrag
    rw [hfind]
  have hsplit : dragSession id sx sy (ms ++ [ev]) rectW rectH s =
      handleMove ev rectW rectH (dragSession id sx sy ms rectW rectH s) := by
    unfold dragSession
    rw [List.foldl_append]
    rfl
  have hg1 : (dragSession id sx sy ms rectW rectH s).gesture =
      some (if ms.isEmpty
        then (⟨id, .drag, sx, sy, l.scale, l.rotation, l.x, l.y, 0, 0, false⟩ : GestureState)
        else ⟨id, .drag, sx, sy, l.scale, l.rotation, l.x, l.y, 0, 0, true⟩) := by
    unfold dragSession
    have := foldl_handleMove_gesture rectW rectH ms (handlePointerDownDrag id sx sy ⟨s, none⟩)
      ⟨id, .drag, sx, sy, l.scale, l.rotation, l.x, l.y, 0, 0, false⟩ (by rw [hdown])
    rw [this]
  have hgN : ∃ b : Bool,
      (dragSession id sx sy ms rectW rectH s).gesture =
        some ⟨id, .drag, sx, sy, l.scale, l.rotation, l.x, l.y, 0, 0, b⟩ := by
    cases hms : ms.isEmpty
    · exact ⟨true, by rw [hg1, hms]; rfl⟩
    · exact ⟨false, by rw [hg1, hms]; rfl⟩
  obtain ⟨b, hgb⟩ := hgN
  have hframe : (dragSession id sx sy (ms ++ [ev]) rectW rectH s).studio.history = s.history ∧
      (dragSession id sx sy (ms ++ [ev]) rectW rectH s).studio.historyIndex = s.historyIndex := by
    unfold dragSession
    obtain ⟨h1, h2⟩ := foldl_handleMove_frame rectW rectH (ms ++ [ev])
      (handlePointerDownDrag id sx sy ⟨s, none⟩)
    rw [h1, h2, hdown]
    exact ⟨rfl, rfl⟩
  have hup : (dragSession id sx sy (ms ++ [ev]) rectW rectH s).gesture =
      some ⟨id, .drag, sx, sy, l.scale, l.rotation, l.x, l.y, 0, 0, true⟩ := by
    rw [hsplit]
    exact handleMove_gesture ev rectW rectH _ _ hgb
  have hupEq : (handleUp (dragSession id sx sy (ms ++ [ev]) rectW rectH s)).studio =
      commit (dragSession id sx sy (ms ++ [ev]) rectW rectH s).studio.layers
        (dragSession id sx sy (ms ++ [ev]) rectW rectH s).studio := by
    unfold handleUp
    rw [hup]
    rfl
  refine ⟨?_, ?_, hupEq, ?_⟩
  · intro a ha haid
    rw [hsplit] at ha
    rw [handleMove_drag_layers ev rectW rectH _ _ hgb rfl] at ha
    rcases List.mem_map.mp ha with ⟨o, ho, hoa⟩
    unfold dragApply at hoa
    by_cases huid : o.uid = id
    · rw [if_pos huid] at hoa
      rw [← hoa]
      exact ⟨rfl, rfl⟩
    · rw [if_neg huid] at hoa
      rw [← hoa] at haid
      exact absurd haid huid
  · have hzero : dragSession id sx sy [] rectW rectH s =
        ⟨{ s with activeLayerId := some id },
          some ⟨id, .drag, sx, sy, l.scale, l.rotation, l.x, l.y, 0, 0, false⟩⟩ := by
      unfold dragSession
      simpa using hdown
    rw [hzero]
    rfl
  · intro hidx hlen
    rw [hupEq]
    unfold commit
    dsimp only
    rw [hframe.1, hframe.2, hidx, List.take_length]
    have hcap : ¬ ((s.history ++
        [(dragSession id sx sy (ms ++ [ev]) rectW rectH s).studio.layers]).length > 20) := by
      simp only [List.length_append, List.length_singleton]
      omega
    rw [if_neg hcap]

/-- Witness for C9: a one-move drag on a 200×100 canvas starting from
the centred layer (Scenario D's 10%-of-width drag), plus the no-move
release and the single committed entry. -/
theorem drag_session_spec_witness :
    (∀ a ∈ (dragSession "c" 0 0 ([] ++ [dragMoveEv]) 200 100 studioC).studio.layers,
      a.uid = "c" →
        a.x = clampQ 0 100 (layerC.x + (dragMoveEv.clientX - 0) / 200 * 100) ∧
        a.y = clampQ 0 100 (layerC.y + (dragMoveEv.clientY - 0) / 100 * 100)) ∧
    handleUp (dragSession "c" 0 0 [] 200 100 studioC) =
      ⟨{ studioC with activeLayerId := some "c" }, none⟩ ∧
    (handleUp (dragSession "c" 0 0 ([] ++ [dragMoveEv]) 200 100 studioC)).studio.history =
      studioC.history ++
        [(dragSession "c" 0 0 ([] ++ [dragMoveEv]) 200 100 studioC).studio.layers] := by
  have h := drag_session_spec studioC "c" layerC 0 0 200 100 [] dragMoveEv (by decide)
  exact ⟨h.1, h.2.1, h.2.2.2 (by decide) (by decide)⟩

/-! ## C8: WYSIWYG capture crop -/

theorem scale_cap (w h : ℚ) (hw : 0 < w) (hh : 0 < h) :
    w * min 1 (MAX_DIM / max w h) ≤ w ∧ h * min 1 (MAX_DIM / max w h) ≤ h ∧
    max (w * min 1 (MAX_DIM / max w h)) (h * min 1 (MAX_DIM / max w h)) ≤ MAX_DIM := by
  have hmax : 0 < max w h := lt_max_of_lt_left hw
  have hdiv : (0 : ℚ) ≤ MAX_DIM / max w h := by
    apply div_nonneg
    · unfold MAX_DIM
      norm_num
    · exact le_of_lt hmax
  have hscale0 : (0 : ℚ) ≤ min 1 (MAX_DIM / max w h) := le_min (by norm_num) hdiv
  have hscale1 : min 1 (MAX_DIM / max w h) ≤ 1 := min_le_left _ _
  refine ⟨?_, ?_, ?_⟩
  · calc w * min 1 (MAX_DIM / max w h) ≤ w * 1 :=
          mul_le_mul_of_nonneg_left hscale1 (le_of_lt hw)
      _ = w := mul_one w
  · calc h * min 1 (MAX_DIM / max w h) ≤ h * 1 :=
          mul_le_mul_of_nonneg_left hscale1 (le_of_lt hh)
      _ = h := mul_one h
  · rw [← max_mul_of_nonneg w h hscale0]
    by_cases hc : MAX_DIM / max w h ≤ 1
    · rw [min_eq_right hc, mul_comm, div_mul_cancel₀ _ (ne_of_gt hmax)]
    · rw [min_eq_left (le_of_not_le hc), mul_one]
      exact (one_le_div hmax).mp (le_of_lt (lt_of_not_le hc))

/-- C8: the capture crop reproduces the `object-cover` visible
rectangle — when the viewport is wider than the source, the crop height
is `sourceWidth / viewportAspect`, vertically centred; otherwise the
crop width is `sourceHeight × viewportAspect`, horizontally centred —
and the output is the crop scaled by `min(1, 1280/maxDimension)`:
never upscaled, largest output dimension at most 1280. -/
theorem capture_crop_spec (vidW vidH screenW screenH : ℚ)
    (hvW : 0 < vidW) (hvH : 0 < vidH) (hsW : 0 < screenW) (hsH : 0 < screenH) :
    (vidW / vidH < screenW / screenH →
      (computeCapture vidW vidH screenW screenH).sWidth = vidW ∧
      (computeCapture vidW vidH screenW screenH).sHeight = vidW / (screenW / screenH) ∧
      (computeCapture vidW vidH screenW screenH).sx = 0 ∧
      (computeCapture vidW vidH screenW screenH).sy =
        (vidH - (computeCapture vidW vidH screenW screenH).sHeight) / 2) ∧
    (¬ vidW / vidH < screenW / screenH →
      (computeCapture vidW vidH screenW screenH).sHeight = vidH ∧
      (computeCapture vidW vidH screenW screenH).sWidth = vidH * (screenW / screenH) ∧
      (computeCapture vidW vidH screenW screenH).sy = 0 ∧
      (computeCapture vidW vidH screenW screenH).sx =
        (vidW - (computeCapture vidW vidH screenW screenH).sWidth) / 2) ∧
    (computeCapture vidW vidH screenW screenH).outW =
      (computeCapture vidW vidH screenW screenH).sWidth *
        min 1 (MAX_DIM / max (computeCapture vidW vidH screenW screenH).sWidth
          (computeCapture vidW vidH screenW screenH).sHeight) ∧
    (computeCapture vidW vidH screenW screenH).outH =
      (computeCapture vidW vidH screenW screenH).sHeight *
        min 1 (MAX_DIM / max (computeCapture vidW vidH screenW screenH).sWidth
          (computeCapture vidW vidH screenW screenH).sHeight) ∧
    (computeCapture vidW vidH screenW screenH).outW ≤
      (computeCapture vidW vidH screenW screenH).sWidth ∧
    (computeCapture vidW vidH screenW screenH).outH ≤
      (computeCapture vidW vidH screenW screenH).sHeight ∧
    max (computeCapture vidW vidH screenW screenH).outW
      (computeCapture vidW vidH screenW screenH).outH ≤ MAX_DIM := by
  by_cases hasp : vidW / vidH < screenW / screenH
  · have hcc : computeCapture vidW vidH screenW screenH =
        ⟨0, (vidH - vidW / (screenW / screenH)) / 2, vidW, vidW / (screenW / screenH),
          vidW * min 1 (MAX_DIM / max vidW (vidW / (screenW / screenH))),
          (vidW / (screenW / screenH)) *
            min 1 (MAX_DIM / max vidW (vidW / (screenW / screenH)))⟩ := by
      unfold computeCapture
      dsimp only
      rw [if_pos hasp]
    rw [hcc]
    dsimp only
    have hsh : 0 < vidW / (screenW / screenH) := by positivity
    obtain ⟨c1, c2, c3⟩ := scale_cap vidW (vidW / (screenW / screenH)) hvW hsh
    exact ⟨fun _ => ⟨rfl, rfl, rfl, rfl⟩, fun hn => absurd hasp hn, rfl, rfl, c1, c2, c3⟩
  · have hcc : computeCapture vidW vidH screenW screenH =
        ⟨(vidW - vidH * (screenW / screenH)) / 2, 0, vidH * (screenW / screenH), vidH,
          (vidH * (screenW / screenH)) *
            min 1 (MAX_DIM / max (vidH * (screenW / screenH)) vidH),
          vidH * min 1 (MAX_DIM / max (vidH * (screenW / screenH)) vidH)⟩ := by
      unfold computeCapture
      dsimp only
      rw [if_neg hasp]
    rw [hcc]
    dsimp only
    have hsw : 0 < vidH * (screenW / screenH) := by positivity
    obtain ⟨c1, c2, c3⟩ := scale_cap (vidH * (screenW / screenH)) vidH hsw hvH
    exact ⟨fun hp => absurd hp hasp, fun _ => ⟨rfl, rfl, rfl, rfl⟩, rfl, rfl, c1, c2, c3⟩

/-- Witness for C8 at Scenario C's 16:9 viewport over a 4:3 source
(640×480 source, 1600×900 viewport). -/
theorem capture_crop_spec_witness :
    ((640 : ℚ) / 480 < 1600 / 900 →
      (computeCapture 640 480 1600 900).sWidth = 640 ∧
      (computeCapture 640 480 1600 900).sHeight = 640 / ((1600 : ℚ) / 900) ∧
      (computeCapture 640 480 1600 900).sx = 0 ∧
      (computeCapture 640 480 1600 900).sy =
        (480 - (computeCapture 640 480 1600 900).sHeight) / 2) ∧
    (¬ (640 : ℚ) / 480 < 1600 / 900 →
      (computeCapture 640 480 1600 900).sHeight = 480 ∧
      (computeCapture 640 480 1600 900).sWidth = 480 * ((1600 : ℚ) / 900) ∧
      (computeCapture 640 480 1600 900).sy = 0 ∧
      (computeCapture 640 480 1600 900).sx =
        (640 - (computeCapture 640 480 1600 900).sWidth) / 2) ∧
    (computeCapture 640 480 1600 900).outW =
      (computeCapture 640 480 1600 900).sWidth *
        min 1 (MAX_DIM / max (computeCapture 640 480 1600 900).sWidth
          (computeCapture 640 480 1600 900).sHeight) ∧
    (computeCapture 640 480 1600 900).outH =
      (computeCapture 640 480 1600 900).sHeight *
        min 1 (MAX_DIM / max (computeCapture 640 480 1600 900).sWidth
          (computeCapture 640 480 1600 900).sHeight) ∧
    (computeCapture 640 480 1600 900).outW ≤ (computeCapture 640 480 1600 900).sWidth ∧
    (computeCapture 640 480 1600 900).outH ≤ (computeCapture 640 480 1600 900).sHeight ∧
    max (computeCapture 640 480 1600 900).outW (computeCapture 640 480 1600 900).outH ≤
      MAX_DIM :=
  capture_crop_spec 640 480 1600 900 (by norm_num) (by norm_num) (by norm_num) (by norm_num)
